import Mathlib

/-!
Shallow embedding of the FinancePlotter repository
(`financeplotter/charts/base.py`, `financeplotter/indicators/technical.py`,
`financeplotter/ml/visualizations.py`).

Series values are modelled as rationals (`ℚ`), and as reals (`ℝ`) where a
square root occurs (rolling standard deviation).  A pandas `NaN` entry is
modelled as `none` in a `List (Option _)`.  A Python exception is modelled by
`Except PyErr`.
-/

/-- A Python exception raised by the embedded code. -/
inductive PyErr where
  | nameError (ident : String)
  | keyError (key : String)
  deriving DecidableEq, Repr

/-- Generic windowed helpers: the trailing window of length `p` ending at
index `i` of a list, i.e. the slice `s[i-p+1 .. i]` (as pandas `rolling`
uses).  When `i + 1 < p` the result is shorter than `p`. -/
def windowAt (p : ℕ) (s : List α) (i : ℕ) : List α :=
  (s.take (i + 1)).drop (i + 1 - p)

/-- Embedding of `Series.rolling(window=p).apply(f)`: entry `i` is `f` of
the trailing window when the window is full (`i + 1 ≥ p`) and free of `NaN`,
and `NaN` (`none`) otherwise, as pandas does with the default
`min_periods = window`. -/
def rollingApply (f : List α → α) (p : ℕ) (s : List (Option α)) :
    List (Option α) :=
  (List.range s.length).map fun i =>
    if p ≤ i + 1 then
      if (windowAt p s i).all Option.isSome then
        some (f (windowAt p s i).reduceOption)
      else none
    else none

/-- Mean of a list over a division ring (sum divided by length). -/
def listMean [DivisionRing α] (w : List α) : α :=
  w.sum / (w.length : α)

/-- Embedding of `Series.rolling(window=p).mean()`. -/
def rollingMean [DivisionRing α] (p : ℕ) (s : List (Option α)) :
    List (Option α) :=
  rollingApply listMean p s

/-- Sample standard deviation (pandas `std()` default `ddof=1`):
`sqrt (Σ (x - mean)² / (n - 1))`. -/
noncomputable def sampleStd (w : List ℝ) : ℝ :=
  Real.sqrt (((w.map fun x => (x - listMean w) ^ 2).sum) / ((w.length : ℝ) - 1))

/-- Embedding of `Series.rolling(window=p).std()`. -/
noncomputable def rollingStd (p : ℕ) (s : List (Option ℝ)) :
    List (Option ℝ) :=
  rollingApply sampleStd p s

/-- One step of the `adjust=False` exponential weighting recursion:
`y_t = alpha * x_t + (1 - alpha) * y_(t-1)`. -/
def ewmStep [DivisionRing α] (alpha prev x : α) : α :=
  alpha * x + (1 - alpha) * prev

/-- The tail of the `adjust=False` exponential mean, continuing from the
accumulated value `y`. -/
def ewmFrom [DivisionRing α] (alpha y : α) : List α → List α
  | [] => []
  | x :: xs =>
      ewmStep alpha y x :: ewmFrom alpha (ewmStep alpha y x) xs

/-- Embedding of `Series.ewm(span=p, adjust=False).mean()` for a NaN-free
input: `alpha = 2 / (p + 1)`, `y_0 = x_0` and
`y_t = alpha * x_t + (1 - alpha) * y_(t-1)`. -/
def ewmMean [DivisionRing α] (p : ℕ) : List α → List α
  | [] => []
  | x :: xs => x :: ewmFrom (2 / ((p : α) + 1)) x xs

/-- Embedding of `Series.diff()`: entry `0` is `NaN`, entry `i ≥ 1` is
`s[i] - s[i-1]`. -/
def seriesDiff [Sub α] (s : List α) : List (Option α) :=
  match s with
  | [] => []
  | _ :: _ => none :: (List.zipWith (fun a b => some (b - a)) s s.tail)

/-- Elementwise combination of two series with NaN propagation
(pandas aligned binary arithmetic). -/
def optZip (f : α → β → γ) : List (Option α) → List (Option β) → List (Option γ) :=
  List.zipWith fun a b =>
    match a, b with
    | some x, some y => some (f x y)
    | _, _ => none

/-- Elementwise `f` on one series with NaN propagation. -/
def optMap (f : α → β) (s : List (Option α)) : List (Option β) :=
  s.map (Option.map f)

/-- Embedding of `Series.where(cond, other)` for a scalar `other`: entries
satisfying `cond` are kept, all other entries — including `NaN`, on which any
comparison is `False` — are replaced by `other`. -/
def seriesWhere (cond : α → Bool) (other : α) (s : List (Option α)) : List (Option α) :=
  s.map fun d =>
    match d with
    | some x => if cond x then some x else some other
    | none => some other

/-- A pandas `DataFrame` as used by this repository: an index column plus a
list of named numeric columns. -/
structure DataFrame where
  index : List ℚ
  cols : List (String × List ℚ)
  deriving DecidableEq, Repr

/-- Column lookup, `data[column]`: `none` models a `KeyError`. -/
def DataFrame.col (d : DataFrame) (c : String) : Option (List ℚ) :=
  (d.cols.find? fun pr => pr.1 = c).map Prod.snd

/-- Membership test `column in data.columns`. -/
def DataFrame.hasCol (d : DataFrame) (c : String) : Bool :=
  d.cols.any fun pr => pr.1 = c

/-- Construction `pd.DataFrame({name1: col1, ...})`: the index is the default
integer range. -/
def DataFrame.ofCols (cols : List (String × List ℚ)) : DataFrame :=
  { index := (List.range (((cols.head?.map fun pr => pr.2.length)).getD 0)).map
      fun n => (n : ℚ),
    cols := cols }

/-- A plotly trace, restricted to the fields this repository sets and the
claims mention.  `y` entries may be `NaN` (`none`). -/
inductive Trace where
  | candlestick (x : List ℚ) (o h l c : List ℚ) (name : String)
  | bar (x : List ℚ) (y : List (Option ℚ)) (name : String)
  | scatter (x : List ℚ) (y : List (Option ℚ)) (name : String)
  deriving DecidableEq, Repr

/-- A plotly figure, restricted to the state this repository manipulates:
subplot geometry, the traces with their subplot row, horizontal lines, and
the layout fields touched by `update_layout` / `update_xaxes` /
`update_traces`. -/
structure Figure where
  rows : ℕ
  rowHeights : List ℚ
  traces : List (Trace × ℕ)
  hlines : List (ℚ × ℕ)
  rangesliderVisible : Bool
  dragmode : Option String
  modebarAdd : List String
  hovertemplate : Option String
  title : Option String
  yaxisTitle : Option String
  yaxis2Title : Option String
  deriving DecidableEq, Repr

/-- Embedding of `plotly.subplots.make_subplots(rows=r, ..., row_heights=h)`. -/
def make_subplots (rows : ℕ) (rowHeights : List ℚ) : Figure :=
  { rows := rows, rowHeights := rowHeights, traces := [], hlines := [],
    rangesliderVisible := false, dragmode := none, modebarAdd := [],
    hovertemplate := none, title := none, yaxisTitle := none,
    yaxis2Title := none }

/-- Embedding of `go.Figure()`. -/
def Figure.empty : Figure :=
  make_subplots 1 []

/-- Embedding of `fig.add_trace(t, row=r, col=1)`; a trace added without an
explicit row goes to row 1. -/
def Figure.add_trace (f : Figure) (t : Trace) (row : ℕ) : Figure :=
  { f with traces := f.traces ++ [(t, row)] }

/-- Embedding of `fig.add_hline(y=v, ..., row=r, col=1)`. -/
def Figure.add_hline (f : Figure) (v : ℚ) (row : ℕ) : Figure :=
  { f with hlines := f.hlines ++ [(v, row)] }

/-- The `Chart` class of `financeplotter/charts/base.py`: a DataFrame, an
optional title, and `fig`, which `__init__` sets to `None`. -/
structure Chart where
  data : DataFrame
  title : Option String
  fig : Option Figure
  deriving DecidableEq, Repr

/-- Embedding of `Chart.add_range_slider`: when `self.fig` is truthy (a
figure object), set `rangeslider_visible=True`; always return `self`. -/
def Chart.add_range_slider (c : Chart) : Chart :=
  match c.fig with
  | some f => { c with fig := some { f with rangesliderVisible := true } }
  | none => c

/-- Embedding of `Chart.add_zoom_pan`. -/
def Chart.add_zoom_pan (c : Chart) : Chart :=
  match c.fig with
  | some f =>
      let f2 := { f with
        dragmode := some "zoom"
        modebarAdd := ["zoom", "pan", "zoomIn", "zoomOut", "resetScale"] }
      { c with fig := some f2 }
  | none => c

/-- Embedding of `Chart.add_tooltips`. -/
def Chart.add_tooltips (c : Chart) : Chart :=
  match c.fig with
  | some f =>
      let f2 := { f with
        hovertemplate := some "%\x7bx\x7d<br>%\x7by:.2f\x7d<extra></extra>" }
      { c with fig := some f2 }
  | none => c

/-- The global names bound in module `financeplotter/indicators/technical.py`:
its imports (`import pandas as pd`, `import numpy as np`,
`from typing import Optional, Union, Tuple`, `from ..charts.base import
Chart`) and its own function definitions.  The module never imports
`plotly.graph_objects as go`, so `go` is absent. -/
def technicalModuleNames : List String :=
  ["pd", "np", "Optional", "Union", "Tuple", "Chart",
   "add_sma", "add_ema", "add_rsi", "add_macd", "add_bollinger_bands"]

/-- Name resolution in the indicators module: evaluating an identifier that
is not bound raises a `NameError`. -/
def technicalResolves (ident : String) : Bool :=
  technicalModuleNames.contains ident

/-- The SMA series of `add_sma` (line 26):
`data[column].rolling(window=period).mean()`. -/
def smaOf (s : List ℚ) (period : ℕ) : List (Option ℚ) :=
  rollingMean period (s.map some)

/-- Embedding of `add_sma(chart, period, column)`.  The body first returns
the chart unchanged when `chart.fig` is falsy (`None`); otherwise it reads
`data[column]`, computes the SMA, and then evaluates
`go.Scatter(...)` — which raises `NameError` since `go` is unbound in the
module. -/
def add_sma (chart : Chart) (period : ℕ) (column : String) :
    Except PyErr Chart :=
  if chart.fig.isSome then
    match chart.data.col column with
    | none => .error (.keyError column)
    | some s =>
      let sma := smaOf s period
      if technicalResolves "go" then
        let addT := fun (f : Figure) =>
          f.add_trace (Trace.scatter chart.data.index sma
            ("SMA " ++ toString period)) 1
        .ok { chart with fig := chart.fig.map addT }
      else .error (.nameError "go")
  else .ok chart

/-- The EMA series of `add_ema` (line 55):
`data[column].ewm(span=period, adjust=False).mean()`. -/
def emaOf (s : List ℚ) (period : ℕ) : List ℚ :=
  ewmMean period s

/-- Embedding of `add_ema(chart, period, column)`; as in `add_sma`, the
plotting call raises `NameError` because `go` is unbound. -/
def add_ema (chart : Chart) (period : ℕ) (column : String) :
    Except PyErr Chart :=
  if chart.fig.isSome then
    match chart.data.col column with
    | none => .error (.keyError column)
    | some s =>
      let ema := emaOf s period
      if technicalResolves "go" then
        let addT := fun (f : Figure) =>
          f.add_trace (Trace.scatter chart.data.index (ema.map some)
            ("EMA " ++ toString period)) 1
        .ok { chart with fig := chart.fig.map addT }
      else .error (.nameError "go")
  else .ok chart

/-- Line 89 of `add_rsi`: `gain = (delta.where(delta > 0, 0))
.rolling(window=period).mean()`, with `delta = data[column].diff()`.
The `NaN` at index 0 of `delta` fails the comparison `delta > 0`, so
`where` replaces it by `0`. -/
def rsiGain (s : List ℚ) (period : ℕ) : List (Option ℚ) :=
  rollingMean period (seriesWhere (fun x => decide (0 < x)) 0 (seriesDiff s))

/-- Line 90 of `add_rsi`:
`loss = (-delta.where(delta < 0, 0)).rolling(window=period).mean()`. -/
def rsiLoss (s : List ℚ) (period : ℕ) : List (Option ℚ) :=
  rollingMean period
    (optMap Neg.neg (seriesWhere (fun x => decide (x < 0)) 0 (seriesDiff s)))

/-- Line 93 of `add_rsi`: `rs = gain / loss`.  The division is performed
with no guard on the denominator; at an index where the rolling average
loss is `0`, the float division yields a non-finite value (`inf` when the
gain is positive, `NaN` on `0/0`), modelled here by the junk value
`g / 0 = 0` of the rationals. -/
def rsiRS (s : List ℚ) (period : ℕ) : List (Option ℚ) :=
  optZip (fun g l => g / l) (rsiGain s period) (rsiLoss s period)

/-- Line 94 of `add_rsi`: `rsi = 100 - (100 / (1 + rs))`. -/
def rsiOf (s : List ℚ) (period : ℕ) : List (Option ℚ) :=
  optMap (fun r => 100 - 100 / (1 + r)) (rsiRS s period)

/-- Embedding of `add_rsi(chart, period, column)`; the plotting call raises
`NameError` because `go` is unbound. -/
def add_rsi (chart : Chart) (period : ℕ) (column : String) :
    Except PyErr Chart :=
  if chart.fig.isSome then
    match chart.data.col column with
    | none => .error (.keyError column)
    | some s =>
      let rsi := rsiOf s period
      if technicalResolves "go" then
        let addT := fun (f : Figure) =>
          ((f.add_trace (Trace.scatter chart.data.index rsi "RSI") 2
            ).add_hline 70 2).add_hline 30 2
        .ok { chart with fig := chart.fig.map addT }
      else .error (.nameError "go")
  else .ok chart

/-- Line 141 of `add_macd`: `macd = exp1 - exp2` where
`exp1 = data[column].ewm(span=fast_period, adjust=False).mean()` and
`exp2` likewise with `slow_period`. -/
def macdOf (s : List ℚ) (fast slow : ℕ) : List ℚ :=
  List.zipWith (fun a b => a - b) (ewmMean fast s) (ewmMean slow s)

/-- Line 142 of `add_macd`:
`signal = macd.ewm(span=signal_period, adjust=False).mean()`. -/
def macdSignal (s : List ℚ) (fast slow sig : ℕ) : List ℚ :=
  ewmMean sig (macdOf s fast slow)

/-- Line 143 of `add_macd`: `hist = macd - signal`. -/
def macdHist (s : List ℚ) (fast slow sig : ℕ) : List ℚ :=
  List.zipWith (fun a b => a - b) (macdOf s fast slow) (macdSignal s fast slow sig)

/-- Embedding of `add_macd(chart, fast_period, slow_period, signal_period,
column)`; the plotting calls raise `NameError` because `go` is unbound. -/
def add_macd (chart : Chart) (fast slow sig : ℕ) (column : String) :
    Except PyErr Chart :=
  if chart.fig.isSome then
    match chart.data.col column with
    | none => .error (.keyError column)
    | some s =>
      let macd := macdOf s fast slow
      let signal := macdSignal s fast slow sig
      let hist := macdHist s fast slow sig
      if technicalResolves "go" then
        let addT := fun (f : Figure) =>
          ((f.add_trace (Trace.scatter chart.data.index (macd.map some) "MACD") 2
            ).add_trace (Trace.scatter chart.data.index (signal.map some) "Signal") 2
            ).add_trace (Trace.bar chart.data.index (hist.map some) "Histogram") 2
        .ok { chart with fig := chart.fig.map addT }
      else .error (.nameError "go")
  else .ok chart

/-- Line 201 of `add_bollinger_bands`:
`ma = data[column].rolling(window=period).mean()`, over the reals since the
standard deviation next to it needs a square root. -/
noncomputable def bollMA (s : List ℝ) (period : ℕ) : List (Option ℝ) :=
  rollingMean period (s.map some)

/-- Line 202 of `add_bollinger_bands`:
`std = data[column].rolling(window=period).std()` (sample standard
deviation, `ddof=1`). -/
noncomputable def bollStd (s : List ℝ) (period : ℕ) : List (Option ℝ) :=
  rollingStd period (s.map some)

/-- Line 203 of `add_bollinger_bands`: `upper = ma + (std * std_dev)`. -/
noncomputable def bollUpper (s : List ℝ) (period : ℕ) (std_dev : ℝ) :
    List (Option ℝ) :=
  optZip (fun m d => m + d * std_dev) (bollMA s period) (bollStd s period)

/-- Line 204 of `add_bollinger_bands`: `lower = ma - (std * std_dev)`. -/
noncomputable def bollLower (s : List ℝ) (period : ℕ) (std_dev : ℝ) :
    List (Option ℝ) :=
  optZip (fun m d => m - d * std_dev) (bollMA s period) (bollStd s period)

/-- Embedding of `add_bollinger_bands(chart, period, std_dev, column)`.
The band arithmetic of lines 201–204 (`bollUpper` / `bollLower`, over `ℝ`)
runs first and cannot fail; the plotting call then raises `NameError`
because `go` is unbound, so the success branch is unreachable and the
real-valued bands never reach a trace. -/
noncomputable def add_bollinger_bands (chart : Chart) (period : ℕ)
    (std_dev : ℝ) (column : String) : Except PyErr Chart :=
  if chart.fig.isSome then
    match chart.data.col column with
    | none => .error (.keyError column)
    | some s =>
      let _upper := bollUpper (s.map fun q => (q : ℝ)) period std_dev
      let _lower := bollLower (s.map fun q => (q : ℝ)) period std_dev
      if technicalResolves "go" then
        .ok chart
      else .error (.nameError "go")
  else .ok chart

/-- Embedding of `create_candlestick(data, title, volume, indicators)` from
`financeplotter/charts/base.py`: `rows = 2 if volume else 1`, row heights
`[0.7, 0.3]` when `volume` else `[1]`; the candlestick trace over the
`Open`/`High`/`Low`/`Close` columns is added to row 1 (a missing column
raises `KeyError`); a `Volume` bar trace is added to row 2 only when
`volume` is true and `'Volume' in data.columns`; `update_layout` then sets
the titles and hides the range slider.  The unused `indicators` argument of
the source is omitted. -/
def create_candlestick (data : DataFrame) (title : Option String)
    (volume : Bool) : Except PyErr Chart :=
  let rows := if volume then 2 else 1
  let fig := make_subplots rows (if volume then [7/10, 3/10] else [1])
  match data.col "Open" with
  | none => .error (.keyError "Open")
  | some o =>
    match data.col "High" with
    | none => .error (.keyError "High")
    | some h =>
      match data.col "Low" with
      | none => .error (.keyError "Low")
      | some l =>
        match data.col "Close" with
        | none => .error (.keyError "Close")
        | some c =>
          let fig := fig.add_trace
            (Trace.candlestick data.index o h l c "OHLC") 1
          let fig :=
            if volume && data.hasCol "Volume" then
              fig.add_trace
                (Trace.bar data.index (((data.col "Volume").getD []).map some)
                  "Volume") 2
            else fig
          let fig := { fig with
            title := title
            yaxisTitle := some "Price"
            yaxis2Title := if volume then some "Volume" else none
            rangesliderVisible := false }
          .ok { data := data, title := title, fig := some fig }

/-- Modelled from the spec: `sklearn.metrics.roc_curve` belongs to an
external library, not to this repository.  Per the spec's glossary, the ROC
curve is the sequence of (false-positive rate, true-positive rate) pairs
across classification thresholds: here the thresholds are the distinct score
values in decreasing order, a sample counts as predicted positive when its
score is at least the threshold, and an initial `(0, 0)` point is included.
Returns `(fpr, tpr, thresholds)`. -/
def roc_curve (y_true : List Bool) (y_score : List ℚ) :
    List ℚ × List ℚ × List ℚ :=
  let pairs := List.zip y_true y_score
  let pos : ℚ := ((pairs.filter fun pr => pr.1).length : ℚ)
  let neg : ℚ := ((pairs.filter fun pr => !pr.1).length : ℚ)
  let thresholds := List.insertionSort (fun a b => b ≤ a) y_score.dedup
  let fpr := thresholds.map fun t =>
    ((pairs.filter fun pr => !pr.1 && decide (t ≤ pr.2)).length : ℚ) / neg
  let tpr := thresholds.map fun t =>
    ((pairs.filter fun pr => pr.1 && decide (t ≤ pr.2)).length : ℚ) / pos
  (0 :: fpr, 0 :: tpr, thresholds)

/-- Embedding of `plot_roc_curve(y_true, y_score, title)` from
`financeplotter/ml/visualizations.py`: computes
`fpr, tpr, _ = roc_curve(y_true, y_score)`, adds the ROC scatter trace
(whose source name interpolates the AUC value into the label, abbreviated
here to `"ROC"`), adds the diagonal reference trace from `(0, 0)` to
`(1, 1)` named `"Random"`, and wraps `pd.DataFrame({'fpr': fpr, 'tpr':
tpr})` in a `Chart`. -/
def plot_roc_curve (y_true : List Bool) (y_score : List ℚ)
    (title : Option String) : Chart :=
  let r := roc_curve y_true y_score
  let fpr := r.1
  let tpr := r.2.1
  let fig := Figure.empty
  let fig := fig.add_trace (Trace.scatter fpr (tpr.map some) "ROC") 1
  let fig := fig.add_trace (Trace.scatter [0, 1] [some 0, some 1] "Random") 1
  let fig := { fig with
    title := some (title.getD "ROC Curve")
    yaxisTitle := some "True Positive Rate" }
  { data := DataFrame.ofCols [("fpr", fpr), ("tpr", tpr)],
    title := title,
    fig := some fig }

/-! Helper lemmas about the embedded pandas operations. -/

/-- Collapsing `reduceOption` over a NaN-free series. -/
theorem reduceOption_map_some (l : List α) : (l.map some).reduceOption = l := by
  induction l with
  | nil => rfl
  | cons a t ih => simp [ih]

/-- Windows commute with elementwise maps. -/
theorem windowAt_map (f : α → β) (p i : ℕ) (s : List α) :
    windowAt p (s.map f) i = (windowAt p s i).map f := by
  simp [windowAt, List.map_take, List.map_drop]

/-- A full trailing window has exactly `p` elements. -/
theorem windowAt_length (p i : ℕ) (s : List α) (hp : p ≤ i + 1)
    (hi : i < s.length) : (windowAt p s i).length = p := by
  simp only [windowAt, List.length_drop, List.length_take]
  omega

/-- The trailing window is the slice starting at `i + 1 - p` of length `p`,
i.e. `s[i-p+1 .. i]`. -/
theorem windowAt_eq_drop_take (p i : ℕ) (s : List α) (hp : p ≤ i + 1) :
    windowAt p s i = (s.drop (i + 1 - p)).take p := by
  rw [windowAt, List.drop_take]
  congr 1
  omega

/-- A rolling computation preserves the series length. -/
theorem rollingApply_length (f : List α → α) (p : ℕ) (s : List (Option α)) :
    (rollingApply f p s).length = s.length := by
  simp [rollingApply]

/-- Entry `i` of a rolling computation over a NaN-free series: `f` of the
full trailing window once `i + 1 ≥ p`, `NaN` before that. -/
theorem rollingApply_get (f : List α → α) (p : ℕ) (t : List α) (i : ℕ)
    (hi : i < t.length) :
    (rollingApply f p (t.map some)).get? i =
      some (if p ≤ i + 1 then some (f (windowAt p t i)) else none) := by
  rw [rollingApply, List.get?_eq_getElem?, List.getElem?_map, List.length_map,
    List.getElem?_range hi]
  simp [windowAt_map, List.all_eq_true, reduceOption_map_some]

/-- Length of the `adjust=False` exponential-mean tail. -/
theorem ewmFrom_length [DivisionRing α] (alpha : α) :
    ∀ (xs : List α) (y : α), (ewmFrom alpha y xs).length = xs.length := by
  intro xs
  induction xs with
  | nil => intro y; rfl
  | cons z t ih => intro y; simp [ewmFrom, ih]

/-- The defining recursion of the exponential-mean tail, read off a shifted
pair of entries. -/
theorem ewmFrom_step [DivisionRing α] (alpha : α) :
    ∀ (xs : List α) (y : α) (i : ℕ) (x prev : α),
      xs.get? i = some x →
      (y :: ewmFrom alpha y xs).get? i = some prev →
      (ewmFrom alpha y xs).get? i = some (ewmStep alpha prev x) := by
  intro xs
  induction xs with
  | nil => intro y i x prev hx _; simp at hx
  | cons z t ih =>
    intro y i x prev hx hp
    cases i with
    | zero =>
      simp only [List.get?_cons_zero, Option.some.injEq] at hx hp
      subst hx; subst hp
      rfl
    | succ n =>
      simp only [List.get?_cons_succ] at hx hp
      exact ih (ewmStep alpha y z) n x prev hx hp

/-- `ewm(span=p, adjust=False).mean()` preserves the series length. -/
theorem ewmMean_length [DivisionRing α] (p : ℕ) (s : List α) :
    (ewmMean p s).length = s.length := by
  cases s with
  | nil => rfl
  | cons a xs => simp [ewmMean, ewmFrom_length]

/-- The exponential mean starts at the first data point. -/
theorem ewmMean_head [DivisionRing α] (p : ℕ) (s : List α) :
    (ewmMean p s).get? 0 = s.get? 0 := by
  cases s with
  | nil => rfl
  | cons a xs => rfl

/-- The exponential-mean recursion
`y_(i+1) = alpha * x_(i+1) + (1 - alpha) * y_i` with `alpha = 2 / (p + 1)`. -/
theorem ewmMean_step [DivisionRing α] (p : ℕ) (s : List α) (i : ℕ) (x prev : α)
    (hx : s.get? (i + 1) = some x) (hp : (ewmMean p s).get? i = some prev) :
    (ewmMean p s).get? (i + 1) =
      some (ewmStep (2 / ((p : α) + 1)) prev x) := by
  cases s with
  | nil => simp [ewmMean] at hp
  | cons a xs =>
    simp only [List.get?_cons_succ] at hx
    exact ewmFrom_step _ xs a i x prev hx hp

/-- Indexing an elementwise combination of two lists. -/
theorem zipWith_get (f : α → β → γ) :
    ∀ (l1 : List α) (l2 : List β) (i : ℕ) (a : α) (b : β),
      l1.get? i = some a → l2.get? i = some b →
      (List.zipWith f l1 l2).get? i = some (f a b) := by
  intro l1
  induction l1 with
  | nil => intro l2 i a b h; simp at h
  | cons x t ih =>
    intro l2 i a b hx hy
    cases l2 with
    | nil => simp at hy
    | cons y u =>
      cases i with
      | zero =>
        simp only [List.get?_cons_zero, Option.some.injEq] at hx hy
        subst hx; subst hy; rfl
      | succ n =>
        simp only [List.get?_cons_succ] at hx hy
        simpa using ih u n a b hx hy

/-- Indexing `optZip` at two defined entries. -/
theorem optZip_get (f : α → β → γ) (l1 : List (Option α)) (l2 : List (Option β))
    (i : ℕ) (a : α) (b : β) (ha : l1.get? i = some (some a))
    (hb : l2.get? i = some (some b)) :
    (optZip f l1 l2).get? i = some (some (f a b)) := by
  exact zipWith_get _ l1 l2 i (some a) (some b) ha hb

/-- C2: for a numeric series `s` and period `p ≥ 1`, the SMA computed by
`add_sma` is, at every index `i ≥ p - 1`, the unweighted arithmetic mean of
the trailing window `s[i-p+1 .. i]` (of exactly `p` elements), and is
undefined (`NaN`) at every index `i < p - 1`. -/
theorem sma_spec (s : List ℚ) (p i : ℕ) (hp : 1 ≤ p) (hi : i < s.length) :
    (p - 1 ≤ i →
      (smaOf s p).get? i = some (some ((windowAt p s i).sum / (p : ℚ))) ∧
      (windowAt p s i).length = p ∧
      windowAt p s i = (s.drop (i + 1 - p)).take p) ∧
    (i < p - 1 → (smaOf s p).get? i = some none) := by
  have h := rollingApply_get listMean p s i hi
  constructor
  · intro hpi
    have hple : p ≤ i + 1 := by omega
    refine ⟨?_, windowAt_length p i s hple hi, windowAt_eq_drop_take p i s hple⟩
    rw [smaOf, rollingMean, h, if_pos hple, listMean,
      windowAt_length p i s hple hi]
  · intro hlt
    have hn : ¬ p ≤ i + 1 := by omega
    rw [smaOf, rollingMean, h, if_neg hn]

/-- Witness for C2: on the series `[1, 2, 3]` with period `2`, the SMA at
index `2` is the mean of the window `[2, 3]`, and the value at index `0` is
`NaN`. -/
theorem sma_spec_witness :
    (smaOf [(1 : ℚ), 2, 3] 2).get? 2 =
      some (some ((windowAt 2 [(1 : ℚ), 2, 3] 2).sum / (2 : ℚ))) ∧
    (smaOf [(1 : ℚ), 2, 3] 2).get? 0 = some none :=
  ⟨((sma_spec [(1 : ℚ), 2, 3] 2 2 (by decide) (by decide)).1 (by decide)).1,
   (sma_spec [(1 : ℚ), 2, 3] 2 0 (by decide) (by decide)).2 (by decide)⟩

/-- C3: for a numeric series `s` and period `p ≥ 1`, the EMA computed by
`add_ema` (exponential weighting with span `p`, `adjust=False`) satisfies
`ema[0] = s[0]` and `ema[i] = alpha * s[i] + (1 - alpha) * ema[i-1]` for
`i ≥ 1`, with `alpha = 2 / (p + 1)`, and has the same length as `s`. -/
theorem ema_spec (s : List ℚ) (p : ℕ) (hp : 1 ≤ p) :
    (emaOf s p).length = s.length ∧
    (emaOf s p).get? 0 = s.get? 0 ∧
    ∀ i prev x, (emaOf s p).get? i = some prev → s.get? (i + 1) = some x →
      (emaOf s p).get? (i + 1) =
        some ((2 / ((p : ℚ) + 1)) * x + (1 - 2 / ((p : ℚ) + 1)) * prev) := by
  refine ⟨ewmMean_length p s, ewmMean_head p s, ?_⟩
  intro i prev x hprev hx
  exact ewmMean_step p s i x prev hx hprev

/-- Witness for C3: with `s = [1, 2]` and `p = 1` (so `alpha = 1`), the
recursion gives `ema[1] = alpha * 2 + (1 - alpha) * 1`. -/
theorem ema_spec_witness :
    (emaOf [(1 : ℚ), 2] 1).get? 1 =
      some ((2 / ((1 : ℚ) + 1)) * 2 + (1 - 2 / ((1 : ℚ) + 1)) * 1) :=
  (ema_spec [(1 : ℚ), 2] 1 (by decide)).2.2 0 1 2 (by decide) (by decide)

/-- C4: `add_macd` computes `macd = EMA(s, fast) - EMA(s, slow)` (both with
`adjust=False`, i.e. `ewmMean`), `signal = EMA(macd, signal_period)`, and
`histogram = macd - signal`: the MACD line is the pointwise difference of
the two EMAs, the signal line is definitionally an EMA of that difference,
and the histogram is the pointwise difference of MACD and signal. -/
theorem macd_spec (s : List ℚ) (fast slow sig : ℕ) :
    macdOf s fast slow =
      List.zipWith (fun a b => a - b) (emaOf s fast) (emaOf s slow) ∧
    (∀ i a b, (emaOf s fast).get? i = some a → (emaOf s slow).get? i = some b →
      (macdOf s fast slow).get? i = some (a - b)) ∧
    macdSignal s fast slow sig = ewmMean sig (macdOf s fast slow) ∧
    (∀ i m g, (macdOf s fast slow).get? i = some m →
      (macdSignal s fast slow sig).get? i = some g →
      (macdHist s fast slow sig).get? i = some (m - g)) := by
  refine ⟨rfl, ?_, rfl, ?_⟩
  · intro i a b ha hb
    exact zipWith_get _ _ _ i a b ha hb
  · intro i m g hm hg
    exact zipWith_get _ _ _ i m g hm hg

/-- Witness for C4: on `s = [1, 2]` with periods `1, 3, 1`, the MACD entry
at index `1` is the difference of the two EMA entries, and the histogram
entry is the difference of MACD and signal there. -/
theorem macd_spec_witness :
    (macdOf [(1 : ℚ), 2] 1 3).get? 1 = some (2 - 3 / 2) ∧
    (macdHist [(1 : ℚ), 2] 1 3 1).get? 1 = some (1 / 2 - 1 / 2) := by
  have h := macd_spec [(1 : ℚ), 2] 1 3 1
  exact ⟨h.2.1 1 2 (3 / 2) (by norm_num [emaOf, ewmMean, ewmFrom, ewmStep])
      (by norm_num [emaOf, ewmMean, ewmFrom, ewmStep]),
    h.2.2.2 1 (1 / 2) (1 / 2)
      (by norm_num [macdOf, emaOf, ewmMean, ewmFrom, ewmStep])
      (by norm_num [macdSignal, macdOf, emaOf, ewmMean, ewmFrom, ewmStep])⟩

/-- C1: for every chart whose `fig` is set (truthy) and whose data has the
requested column (so execution reaches the first plotting call), each of the
five indicator functions raises `NameError` — the name `go` is never bound
in the indicators module — and hence never returns a chart with an indicator
trace added; and the error is raised if and only if `chart.fig` is truthy. -/
theorem indicators_raise_nameError (c : Chart) (p fast slow sig : ℕ)
    (sd : ℝ) (col : String) (hcol : (c.data.col col).isSome = true) :
    (add_sma c p col = Except.error (PyErr.nameError "go") ↔
      c.fig.isSome = true) ∧
    (add_ema c p col = Except.error (PyErr.nameError "go") ↔
      c.fig.isSome = true) ∧
    (add_rsi c p col = Except.error (PyErr.nameError "go") ↔
      c.fig.isSome = true) ∧
    (add_macd c fast slow sig col = Except.error (PyErr.nameError "go") ↔
      c.fig.isSome = true) ∧
    (add_bollinger_bands c p sd col = Except.error (PyErr.nameError "go") ↔
      c.fig.isSome = true) := by
  obtain ⟨s, hs⟩ := Option.isSome_iff_exists.mp hcol
  cases hf : c.fig with
  | none =>
    simp [add_sma, add_ema, add_rsi, add_macd, add_bollinger_bands, hf]
  | some f =>
    simp [add_sma, add_ema, add_rsi, add_macd, add_bollinger_bands, hf, hs,
      technicalResolves, technicalModuleNames]

/-- A sample chart whose figure is set, used by witnesses. -/
def chartWithFig : Chart :=
  { data := { index := [0, 1, 2], cols := [("Close", [1, 2, 3])] },
    title := none,
    fig := some Figure.empty }

/-- Witness for C1: on a concrete chart with a figure and a `Close` column,
`add_sma` raises `NameError` for `go`. -/
theorem indicators_raise_nameError_witness :
    add_sma chartWithFig 2 "Close" = Except.error (PyErr.nameError "go") :=
  ((indicators_raise_nameError chartWithFig 2 12 26 9 2 "Close"
    (by decide)).1).mpr (by decide)

/-- C8: for every chart whose `fig` is `None`, each indicator function
returns the chart unchanged without raising (in particular no column
validation happens), and each of `add_range_slider`, `add_zoom_pan` and
`add_tooltips` returns the chart with all fields unchanged. -/
theorem fig_none_noop (c : Chart) (p fast slow sig : ℕ) (sd : ℝ)
    (col : String) (h : c.fig = none) :
    add_sma c p col = Except.ok c ∧
    add_ema c p col = Except.ok c ∧
    add_rsi c p col = Except.ok c ∧
    add_macd c fast slow sig col = Except.ok c ∧
    add_bollinger_bands c p sd col = Except.ok c ∧
    c.add_range_slider = c ∧
    c.add_zoom_pan = c ∧
    c.add_tooltips = c := by
  simp [add_sma, add_ema, add_rsi, add_macd, add_bollinger_bands,
    Chart.add_range_slider, Chart.add_zoom_pan, Chart.add_tooltips, h]

/-- A sample chart whose figure is `None` (as `Chart.__init__` leaves it),
used by witnesses.  Its data lacks the default `Close` column on purpose:
the early return happens before any column access. -/
def chartNoFig : Chart :=
  { data := { index := [0], cols := [("Price", [1])] },
    title := some "t",
    fig := none }

/-- Witness for C8: on a concrete figure-less chart, `add_sma` returns the
chart unchanged (even though the `Close` column is absent) and
`add_range_slider` is the identity. -/
theorem fig_none_noop_witness :
    add_sma chartNoFig 20 "Close" = Except.ok chartNoFig ∧
    chartNoFig.add_range_slider = chartNoFig := by
  have h := fig_none_noop chartNoFig 20 12 26 9 2 "Close" rfl
  exact ⟨h.1, h.2.2.2.2.2.1⟩

/-- The values effectively averaged by the RSI gain: for each position, the
one-step difference when positive, else `0` (the undefined first difference
also counts `0`, as `where` replaces the failed comparison on `NaN`). -/
def gainVals (s : List ℚ) : List ℚ :=
  (seriesDiff s).map fun d =>
    match d with
    | some x => if 0 < x then x else 0
    | none => 0

/-- The values effectively averaged by the RSI loss: the magnitude of each
negative one-step difference, else `0`. -/
def lossVals (s : List ℚ) : List ℚ :=
  (seriesDiff s).map fun d =>
    match d with
    | some x => if x < 0 then -x else 0
    | none => 0

/-- The gain series of `add_rsi` is the rolling mean of `gainVals`. -/
theorem rsiGain_eq (s : List ℚ) (p : ℕ) :
    rsiGain s p = rollingMean p ((gainVals s).map some) := by
  rw [rsiGain, gainVals, List.map_map]
  congr 1
  apply List.map_congr_left
  intro d _
  cases d with
  | none => rfl
  | some x =>
    by_cases hx : 0 < x <;> simp [seriesWhere, hx]

/-- The loss series of `add_rsi` is the rolling mean of `lossVals`. -/
theorem rsiLoss_eq (s : List ℚ) (p : ℕ) :
    rsiLoss s p = rollingMean p ((lossVals s).map some) := by
  rw [rsiLoss, lossVals, List.map_map]
  congr 1
  rw [optMap, seriesWhere, List.map_map]
  apply List.map_congr_left
  intro d _
  cases d with
  | none => simp
  | some x =>
    by_cases hx : x < 0 <;> simp [hx]

/-- Every gain value is nonnegative. -/
theorem gainVals_nonneg (s : List ℚ) : ∀ x ∈ gainVals s, 0 ≤ x := by
  intro x hx
  rw [gainVals] at hx
  obtain ⟨d, _, hd⟩ := List.mem_map.mp hx
  cases d with
  | none => exact le_of_eq hd
  | some v =>
    by_cases hv : 0 < v
    · simp only [if_pos hv] at hd
      exact hd ▸ hv.le
    · simp only [if_neg hv] at hd
      exact le_of_eq hd

/-- Every loss value is nonnegative. -/
theorem lossVals_nonneg (s : List ℚ) : ∀ x ∈ lossVals s, 0 ≤ x := by
  intro x hx
  rw [lossVals] at hx
  obtain ⟨d, _, hd⟩ := List.mem_map.mp hx
  cases d with
  | none => exact le_of_eq hd
  | some v =>
    by_cases hv : v < 0
    · simp only [if_pos hv] at hd
      exact hd ▸ (neg_nonneg.mpr hv.le)
    · simp only [if_neg hv] at hd
      exact le_of_eq hd

/-- The mean of a list of nonnegative rationals is nonnegative. -/
theorem listMean_nonneg (w : List ℚ) (h : ∀ x ∈ w, 0 ≤ x) : 0 ≤ listMean w := by
  apply div_nonneg (List.sum_nonneg h)
  exact_mod_cast Nat.zero_le w.length

/-- Every element of a trailing window is an element of the series. -/
theorem windowAt_subset (p i : ℕ) (s : List α) :
    ∀ x ∈ windowAt p s i, x ∈ s := by
  intro x hx
  exact List.take_subset _ _ (List.drop_subset _ _ hx)

/-- Inversion of a defined rolling-mean entry: the index is in range, the
window is full, and the value is the mean of the trailing window. -/
theorem rollingMean_get_inv [DivisionRing α] (p : ℕ) (t : List α) (i : ℕ)
    (v : α) (h : (rollingMean p (t.map some)).get? i = some (some v)) :
    i < t.length ∧ p ≤ i + 1 ∧ v = listMean (windowAt p t i) := by
  have hi : i < t.length := by
    by_contra hn
    have hlen : (rollingMean p (t.map some)).length ≤ i := by
      rw [rollingMean, rollingApply_length, List.length_map]
      omega
    rw [List.get?_eq_none.mpr hlen] at h
    exact Option.noConfusion h
  rw [rollingMean, rollingApply_get listMean p t i hi] at h
  by_cases hple : p ≤ i + 1
  · rw [if_pos hple] at h
    refine ⟨hi, hple, ?_⟩
    injection h with h1
    injection h1 with h2
    exact h2.symm
  · rw [if_neg hple] at h
    injection h with h1
    exact Option.noConfusion h1

/-- Indexing an elementwise map at a defined entry. -/
theorem map_get (f : α → β) (l : List α) (i : ℕ) (a : α)
    (h : l.get? i = some a) : (l.map f).get? i = some (f a) := by
  rw [List.get?_eq_getElem?] at h ⊢
  rw [List.getElem?_map, h]
  rfl

/-- C6: at every index where the RSI pipeline of `add_rsi` is defined and
the average loss is nonzero, `rs` is `avgGain / avgLoss`, the RSI equals
`100 - 100 / (1 + rs)` and lies in `[0, 100]`; the average gain is the
`p`-rolling unweighted mean of the positive one-step differences (with
non-positive ones counted as `0`, via `gainVals`) and the average loss the
mean of the magnitudes of the negative differences (via `lossVals`), each
over a full window of `p` values. -/
theorem rsi_spec (s : List ℚ) (p i : ℕ) (g l : ℚ) (hp : 1 ≤ p)
    (hg : (rsiGain s p).get? i = some (some g))
    (hl : (rsiLoss s p).get? i = some (some l))
    (hlne : l ≠ 0) :
    (rsiRS s p).get? i = some (some (g / l)) ∧
    (rsiOf s p).get? i = some (some (100 - 100 / (1 + g / l))) ∧
    0 ≤ 100 - 100 / (1 + g / l) ∧
    100 - 100 / (1 + g / l) ≤ 100 ∧
    g = listMean (windowAt p (gainVals s) i) ∧
    l = listMean (windowAt p (lossVals s) i) ∧
    (windowAt p (gainVals s) i).length = p ∧
    (windowAt p (lossVals s) i).length = p := by
  have hg' := rsiGain_eq s p ▸ hg
  have hl' := rsiLoss_eq s p ▸ hl
  obtain ⟨hig, hpleg, hmg⟩ := rollingMean_get_inv p (gainVals s) i g hg'
  obtain ⟨hil, hplel, hml⟩ := rollingMean_get_inv p (lossVals s) i l hl'
  have hrs : (rsiRS s p).get? i = some (some (g / l)) :=
    optZip_get _ _ _ i g l hg hl
  have hrsi : (rsiOf s p).get? i =
      some (some (100 - 100 / (1 + g / l))) := by
    rw [rsiOf, optMap]
    exact map_get _ _ i (some (g / l)) hrs
  have hg0 : 0 ≤ g :=
    hmg ▸ listMean_nonneg _
      (fun x hx => gainVals_nonneg s x (windowAt_subset p i _ x hx))
  have hl0 : 0 ≤ l :=
    hml ▸ listMean_nonneg _
      (fun x hx => lossVals_nonneg s x (windowAt_subset p i _ x hx))
  have hrs0 : 0 ≤ g / l := div_nonneg hg0 hl0
  have h1 : (0 : ℚ) < 1 + g / l := by linarith
  have hub : 100 / (1 + g / l) ≤ 100 := by
    rw [div_le_iff h1]
    nlinarith
  have hlb : 0 ≤ 100 / (1 + g / l) := by positivity
  exact ⟨hrs, hrsi, by linarith, by linarith, hmg, hml,
    windowAt_length p i _ hpleg hig, windowAt_length p i _ hplel hil⟩

/-- Witness for C6: on the series `[1, 3, 2]` with period `2`, at index `2`
the average gain is `1` and the average loss `1/2`, so the RSI is
`100 - 100 / (1 + 1 / (1/2))`. -/
theorem rsi_spec_witness :
    (rsiOf [(1 : ℚ), 3, 2] 2).get? 2 =
      some (some (100 - 100 / (1 + (1 : ℚ) / (1 / 2)))) :=
  (rsi_spec [(1 : ℚ), 3, 2] 2 2 1 (1 / 2) (by decide)
    (by norm_num [rsiGain, rollingMean, rollingApply, seriesWhere,
      seriesDiff, windowAt, listMean, List.range_succ])
    (by norm_num [rsiLoss, rollingMean, rollingApply, seriesWhere,
      seriesDiff, optMap, windowAt, listMean, List.range_succ])
    (by norm_num)).2.1

/-- C7: on the strictly increasing series `[1, 2, 3]` (length `period + 1`
with period `2`), the rolling average loss of `add_rsi` is `0` at index `2`
while the average gain is defined (`1`), and the unguarded division
`rs = gain / loss` is still performed there: the `rs` entry is the division
of `1` by the zero denominator (a non-finite float in pandas, the junk
value `1 / 0` of `ℚ` here). -/
theorem rsi_div_by_zero_reachable :
    ((1 : ℚ) < 2 ∧ (2 : ℚ) < 3) ∧
    (rsiLoss [(1 : ℚ), 2, 3] 2).get? 2 = some (some 0) ∧
    (rsiGain [(1 : ℚ), 2, 3] 2).get? 2 = some (some 1) ∧
    (rsiRS [(1 : ℚ), 2, 3] 2).get? 2 = some (some (1 / 0)) := by
  have hl : (rsiLoss [(1 : ℚ), 2, 3] 2).get? 2 = some (some 0) := by
    norm_num [rsiLoss, rollingMean, rollingApply, seriesWhere, seriesDiff,
      optMap, windowAt, listMean, List.range_succ]
  have hg : (rsiGain [(1 : ℚ), 2, 3] 2).get? 2 = some (some 1) := by
    norm_num [rsiGain, rollingMean, rollingApply, seriesWhere, seriesDiff,
      windowAt, listMean, List.range_succ]
  exact ⟨by norm_num, hl, hg, optZip_get _ _ _ 2 1 0 hg hl⟩

/-- Inversion of a defined rolling entry for an arbitrary aggregation. -/
theorem rollingApply_get_inv (f : List α → α) (p : ℕ) (t : List α) (i : ℕ)
    (v : α) (h : (rollingApply f p (t.map some)).get? i = some (some v)) :
    i < t.length ∧ p ≤ i + 1 ∧ v = f (windowAt p t i) := by
  have hi : i < t.length := by
    by_contra hn
    have hlen : (rollingApply f p (t.map some)).length ≤ i := by
      rw [rollingApply_length, List.length_map]
      omega
    rw [List.get?_eq_none.mpr hlen] at h
    exact Option.noConfusion h
  rw [rollingApply_get f p t i hi] at h
  by_cases hple : p ≤ i + 1
  · rw [if_pos hple] at h
    injection h with h1
    injection h1 with h2
    exact ⟨hi, hple, h2.symm⟩
  · rw [if_neg hple] at h
    injection h with h1
    exact Option.noConfusion h1

/-- C5: at every index where both the rolling mean and the rolling sample
standard deviation of `add_bollinger_bands` are defined, the upper band is
`ma + sigma * std_dev`, the lower band is `ma - sigma * std_dev`, and the
bands are symmetric about the moving average; moreover the window is full
and `ma` / `sigma` are the mean and sample standard deviation of the
trailing `p`-window. -/
theorem bollinger_spec (s : List ℝ) (p : ℕ) (k : ℝ) (i : ℕ) (m d : ℝ)
    (hm : (bollMA s p).get? i = some (some m))
    (hd : (bollStd s p).get? i = some (some d)) :
    (bollUpper s p k).get? i = some (some (m + d * k)) ∧
    (bollLower s p k).get? i = some (some (m - d * k)) ∧
    (m + d * k) - m = m - (m - d * k) ∧
    p ≤ i + 1 ∧
    m = listMean (windowAt p s i) ∧
    d = sampleStd (windowAt p s i) := by
  obtain ⟨hi, hple, hmv⟩ := rollingMean_get_inv p s i m hm
  obtain ⟨_, _, hdv⟩ := rollingApply_get_inv sampleStd p s i d hd
  refine ⟨optZip_get _ _ _ i m d hm hd, optZip_get _ _ _ i m d hm hd,
    by ring, hple, hmv, hdv⟩

/-- Witness for C5: on the constant series `[1, 1]` with period `2` and
multiplier `2`, the window mean is `1`, the sample standard deviation is
`0`, and the upper band entry at index `1` is `1 + 0 * 2`. -/
theorem bollinger_spec_witness :
    (bollUpper [(1 : ℝ), 1] 2 2).get? 1 = some (some (1 + 0 * 2)) :=
  (bollinger_spec [(1 : ℝ), 1] 2 2 1 1 0
    (by norm_num [bollMA, rollingMean, rollingApply, windowAt, listMean,
      List.range_succ])
    (by norm_num [bollStd, rollingStd, rollingApply, windowAt, sampleStd,
      listMean, List.range_succ, Real.sqrt_zero])).1

/-- C9: given OHLC columns, `create_candlestick` succeeds and returns a
chart whose figure has 2 subplot rows with heights `[0.7, 0.3]` exactly when
`volume` is true (1 row with heights `[1]` otherwise, regardless of whether
a `Volume` column exists), always contains the candlestick trace over the
`Open`/`High`/`Low`/`Close` columns in row 1, and contains a `Volume` bar
trace in row 2 if and only if `volume` is true and the data has a `Volume`
column. -/
theorem create_candlestick_spec (data : DataFrame) (t : Option String)
    (volume : Bool) (o h l c : List ℚ)
    (ho : data.col "Open" = some o) (hh : data.col "High" = some h)
    (hl : data.col "Low" = some l) (hc : data.col "Close" = some c) :
    ∃ fig, create_candlestick data t volume =
        Except.ok { data := data, title := t, fig := some fig } ∧
      fig.rows = (if volume then 2 else 1) ∧
      fig.rowHeights = (if volume then [7/10, 3/10] else [1]) ∧
      fig.traces =
        (Trace.candlestick data.index o h l c "OHLC", 1) ::
        (if volume && data.hasCol "Volume" then
          [(Trace.bar data.index (((data.col "Volume").getD []).map some)
            "Volume", 2)]
        else []) ∧
      (Trace.candlestick data.index o h l c "OHLC", 1) ∈ fig.traces ∧
      ((∃ y, (Trace.bar data.index y "Volume", 2) ∈ fig.traces) ↔
        (volume = true ∧ data.hasCol "Volume" = true)) := by
  cases volume with
  | false =>
    let figw : Figure :=
      { rows := 1
        rowHeights := [1]
        traces := [(Trace.candlestick data.index o h l c "OHLC", 1)]
        hlines := []
        rangesliderVisible := false
        dragmode := none
        modebarAdd := []
        hovertemplate := none
        title := t
        yaxisTitle := some "Price"
        yaxis2Title := none }
    refine ⟨figw, ?_, rfl, rfl, ?_, ?_, ?_⟩
    · rw [create_candlestick, ho, hh, hl, hc]
      simp [make_subplots, Figure.add_trace, figw]
    · simp [figw]
    · simp [figw]
    · simp [figw]
  | true =>
    cases hvol : data.hasCol "Volume" with
    | false =>
      let figw : Figure :=
        { rows := 2
          rowHeights := [7/10, 3/10]
          traces := [(Trace.candlestick data.index o h l c "OHLC", 1)]
          hlines := []
          rangesliderVisible := false
          dragmode := none
          modebarAdd := []
          hovertemplate := none
          title := t
          yaxisTitle := some "Price"
          yaxis2Title := some "Volume" }
      refine ⟨figw, ?_, rfl, rfl, ?_, ?_, ?_⟩
      · rw [create_candlestick, ho, hh, hl, hc]
        simp [make_subplots, Figure.add_trace, hvol, figw]
      · simp [hvol, figw]
      · simp [figw]
      · simp [hvol, figw]
    | true =>
      let figw : Figure :=
        { rows := 2
          rowHeights := [7/10, 3/10]
          traces := [(Trace.candlestick data.index o h l c "OHLC", 1),
            (Trace.bar data.index (((data.col "Volume").getD []).map some)
              "Volume", 2)]
          hlines := []
          rangesliderVisible := false
          dragmode := none
          modebarAdd := []
          hovertemplate := none
          title := t
          yaxisTitle := some "Price"
          yaxis2Title := some "Volume" }
      refine ⟨figw, ?_, rfl, rfl, ?_, ?_, ?_⟩
      · rw [create_candlestick, ho, hh, hl, hc]
        simp [make_subplots, Figure.add_trace, hvol, figw]
      · simp [hvol, figw]
      · simp [figw]
      · simp [hvol, figw]

/-- A sample OHLCV DataFrame used by witnesses. -/
def ohlcvFrame : DataFrame :=
  { index := [0],
    cols := [("Open", [1]), ("High", [2]), ("Low", [0]), ("Close", [1]),
      ("Volume", [5])] }

/-- Witness for C9: on a concrete OHLCV frame with `volume=True`,
`create_candlestick` succeeds with the frame and title stored on the
chart. -/
theorem create_candlestick_spec_witness :
    ∃ fig, create_candlestick ohlcvFrame (some "BTC") true =
      Except.ok { data := ohlcvFrame, title := some "BTC", fig := some fig } := by
  obtain ⟨fig, h1, _⟩ := create_candlestick_spec ohlcvFrame (some "BTC") true
    [1] [2] [0] [1] (by decide) (by decide) (by decide) (by decide)
  exact ⟨fig, h1⟩

/-- C10: `plot_roc_curve` returns a chart whose figure's first trace plots
the false-positive rates against the true-positive rates produced by
`roc_curve`, whose second trace is the diagonal reference from `(0, 0)` to
`(1, 1)`, and whose `data` is exactly the two-column DataFrame
`{'fpr': fpr, 'tpr': tpr}`. -/
theorem plot_roc_curve_spec (yt : List Bool) (ys : List ℚ)
    (t : Option String) :
    ∃ fig, (plot_roc_curve yt ys t).fig = some fig ∧
      fig.traces =
        [(Trace.scatter (roc_curve yt ys).1
            ((roc_curve yt ys).2.1.map some) "ROC", 1),
         (Trace.scatter [0, 1] [some 0, some 1] "Random", 1)] ∧
      (plot_roc_curve yt ys t).data =
        DataFrame.ofCols
          [("fpr", (roc_curve yt ys).1), ("tpr", (roc_curve yt ys).2.1)] ∧
      (plot_roc_curve yt ys t).data.cols.map Prod.fst = ["fpr", "tpr"] := by
  refine ⟨_, rfl, ?_, rfl, rfl⟩
  simp [plot_roc_curve, Figure.empty, make_subplots, Figure.add_trace]
